import Mathlib

/-!
Shallow embedding of the monmail correlation/detection pipeline
(`src/intelligence/*.py`, `src/storage/database.py`, `src/api/app.py`)
together with theorems checking the natural-language specification.
-/

namespace Monmail

/-! ## Python value helpers

Optional strings stand for Python values that may be `None`; Python
truthiness treats both `None` and the empty string as falsy. -/

/-- Python truthiness of an optional string: `None` and `""` are falsy. -/
def truthy : Option String → Bool
  | none => false
  | some s => !(s == "")

/-- Python `a or b` on optional strings: keeps `a` when truthy, else `b`. -/
def pyOr (a b : Option String) : Option String :=
  if truthy a then a else b

/-- Python `a or d` where the final default `d` is a plain string. -/
def pyOrD (a : Option String) (d : String) : String :=
  match a with
  | some s => if s = "" then d else s
  | none => d

/-- ASCII lower-casing of one character, as Python's `str.lower` acts on the
ASCII inputs this code base handles. -/
def lowerChar (c : Char) : Char :=
  if 'A' ≤ c ∧ c ≤ 'Z' then Char.ofNat (c.toNat + 32) else c

/-- Python `str.lower`, on character lists. -/
def lowerChars (l : List Char) : List Char :=
  l.map lowerChar

/-- Python `str.lower` on strings. -/
def pyLower (s : String) : String :=
  String.mk (lowerChars s.data)

/-- Split a character list at the first occurrence of `sep` (a nonempty
separator), returning the parts before and after it; `none` when `sep` does
not occur. -/
def splitFirst (sep : List Char) : List Char → Option (List Char × List Char)
  | [] => none
  | c :: rest =>
    if sep.isPrefixOf (c :: rest) then some ([], (c :: rest).drop sep.length)
    else
      match splitFirst sep rest with
      | some (pre, post) => some (c :: pre, post)
      | none => none

/-- The part of `l` after the last occurrence of `c` (all of `l` when `c`
does not occur), as in Python's `rpartition`. -/
def afterLast (c : Char) (l : List Char) : List Char :=
  (l.reverse.takeWhile fun d => !(d == c)).reverse

/-! ## IEEE-754 binary64 model

`score_sighting` divides and multiplies Python floats; both operations are
correctly rounded binary64 operations (round to nearest, ties to even).  The
quantities involved lie in `[2^(-7), 2^7)`, far from overflow and subnormal
territory, so a double there is an integer multiple of `2^(-59)`; we represent
it by that integer. -/

/-- Round the fraction `a / b` (with `b ≠ 0`) to the nearest natural number,
ties to even. -/
def roundNearestEven (a b : ℕ) : ℕ :=
  let q := a / b
  let r := a % b
  if 2 * r < b then q
  else if b < 2 * r then q + 1
  else if q % 2 = 0 then q else q + 1

/-- Whether `2 ^ e ≤ num / den` for an integer exponent `e`. -/
def pow2Le (e : ℤ) (num den : ℕ) : Bool :=
  if 0 ≤ e then decide (den * 2 ^ e.toNat ≤ num)
  else decide (den ≤ num * 2 ^ (-e).toNat)

/-- The floor of the base-2 logarithm of `num / den`, searched over the
exponent range `[-7, 7]` (enough for every value `score_sighting` rounds). -/
def log2Floor (num den : ℕ) : ℤ :=
  match (List.range 15).find? fun i =>
      pow2Le ((i : ℤ) - 7) num den && !(pow2Le ((i : ℤ) - 6) num den) with
  | some i => (i : ℤ) - 7
  | none => 0

/-- The binary64 value nearest to the nonnegative rational `num / den`
(ties to even), returned scaled by `2 ^ 59`.  Exact for arguments in
`{0} ∪ [2^(-7), 2^7)`, which covers both roundings in `score_sighting`. -/
def floatRound59 (num den : ℕ) : ℕ :=
  if num = 0 then 0
  else
    let e := log2Floor num den
    let m :=
      if 0 ≤ e then roundNearestEven (num * 2 ^ 52) (den * 2 ^ e.toNat)
      else roundNearestEven (num * 2 ^ (52 + (-e).toNat)) den
    m * 2 ^ (e + 7).toNat

/-! ## `intelligence/ioc_matching.py` -/

/-- The table `SEVERITY_SCORES` from `intelligence/ioc_matching.py`. -/
def SEVERITY_SCORES : List (String × ℕ) :=
  [("low", 10), ("medium", 30), ("high", 60), ("critical", 90)]

/-- Python `SEVERITY_SCORES.get(severity.lower(), 20)`. -/
def severityBase (severity : String) : ℕ :=
  (SEVERITY_SCORES.lookup (pyLower severity)).getD 20

/-- The float pipeline of `score_sighting` on the already-clamped confidence
`c ∈ [0, 100]` and severity base `b`: Python's `int(b * (c / 100))`, i.e. a
correctly rounded float division, a correctly rounded float multiplication,
and a truncation (the value is nonnegative, so truncation is floor). -/
def scoreCore (b c : ℕ) : ℕ :=
  let factor := floatRound59 c 100
  let prod := floatRound59 (b * factor) (2 ^ 59)
  prod / 2 ^ 59

/-- The function `score_sighting` from `intelligence/ioc_matching.py`:
`int(SEVERITY_SCORES.get(severity.lower(), 20) * (max(0, min(confidence, 100)) / 100))`. -/
def score_sighting (confidence : ℤ) (severity : String) : ℤ :=
  (scoreCore (severityBase severity) (max 0 (min confidence 100)).toNat : ℤ)

/-! ## `intelligence/scoring.py` -/

/-- A detection rule as read from the YAML configuration
(`rule.get(...)` fields may be absent). -/
structure Rule where
  name : Option String
  field : Option String
  pattern : Option String
  type : Option String
  base_score : Option ℤ
deriving DecidableEq, Repr

/-- The function `score_detection` from `intelligence/scoring.py`: clamp the rule's base
score (default 50) into `[1, 100]` and bucket it into a severity string. -/
def score_detection (rule : Rule) : ℤ × String :=
  let base := rule.base_score.getD 50
  let confidence := max 1 (min 100 base)
  let severity :=
    if 85 ≤ confidence then "critical"
    else if 70 ≤ confidence then "high"
    else if 40 ≤ confidence then "medium"
    else "low"
  (confidence, severity)

/-! ## `intelligence/ioc_cache.py` -/

/-- The class `HotIndicatorCache`: a TTL cache keyed by `(indicator_type, value)`.
Wall-clock instants are modelled as integer seconds and passed explicitly to
`get`/`set` in place of `datetime.now`. -/
structure HotIndicatorCache (α : Type) where
  ttl : ℤ
  store : List ((String × String) × (ℤ × List α))

/-- Constructor `HotIndicatorCache.__init__`; in the source `ttl_seconds` defaults
to 300. -/
def HotIndicatorCache.init (α : Type) (ttl_seconds : ℤ) : HotIndicatorCache α :=
  ⟨ttl_seconds, []⟩

/-- A cache built with the source's default `ttl_seconds` argument. -/
def HotIndicatorCache.initDefault (α : Type) : HotIndicatorCache α :=
  HotIndicatorCache.init α 300

/-- Method `HotIndicatorCache.get`: a present entry whose expiry is `≤ now` is
evicted and reported as a miss; otherwise the stored list is returned. -/
def HotIndicatorCache.get {α : Type} (c : HotIndicatorCache α) (now : ℤ)
    (indicator_type value : String) : HotIndicatorCache α × Option (List α) :=
  match c.store.lookup (indicator_type, value) with
  | none => (c, none)
  | some (expires_at, data) =>
    if expires_at ≤ now then
      ({ c with store := c.store.filter fun kv => !(kv.1 == (indicator_type, value)) }, none)
    else (c, some data)

/-- Method `HotIndicatorCache.set`: store `data` under the key with expiry
`now + ttl`. -/
def HotIndicatorCache.set {α : Type} (c : HotIndicatorCache α) (now : ℤ)
    (indicator_type value : String) (data : List α) : HotIndicatorCache α :=
  { c with
    store := ((indicator_type, value), (now + c.ttl, data)) ::
      c.store.filter fun kv => !(kv.1 == (indicator_type, value)) }

/-! ## Events and correlation (`intelligence/correlation.py`,
`intelligence/ioc_normalization.py`) -/

/-- The flattened event payload fields consulted by the embedded pipeline
functions (`event.get(...)`; absent keys are `none`). -/
structure Event where
  source : Option String
  tenant_id : Option String
  asset_id : Option String
  source_ip : Option String
  destination : Option String
  smtp_mail_from : Option String
  smtp_rcpt_to : Option String
  dns_query : Option String
  client_ip : Option String
  url : Option String
  raw : String
deriving DecidableEq, Repr

/-- The function `_email_domain` from `intelligence/correlation.py`: `None` for a missing,
empty or `@`-free address, else the lower-cased part after the first `@`
(Python `address.split("@", 1)[1].lower()`). -/
def _email_domain (address : Option String) : Option String :=
  match address with
  | none => none
  | some a =>
    if a = "" ∨ ¬ a.data.contains '@' then none
    else some (String.mk (lowerChars ((a.data.dropWhile fun c => !(c == '@')).drop 1)))

/-- Modelled from Python's `urllib.parse.urlparse(url).hostname` for the
`scheme://netloc/...` URLs this code base handles: the netloc runs from after
the first `://` to the first `/`, `?` or `#`; the hostname drops a `user@`
prefix (up to the last `@`) and a `:port` suffix and is lower-cased; `None`
when empty or when the URL has no `://` (bracketed IPv6 netlocs do not arise
here and are not modelled). -/
def urlHostname (url : String) : Option String :=
  match splitFirst "://".data url.data with
  | none => none
  | some (_, after) =>
    let netloc := after.takeWhile fun c => !(c == '/') && !(c == '?') && !(c == '#')
    let host := (afterLast '@' netloc).takeWhile fun c => !(c == ':')
    if host.isEmpty then none else some (String.mk (lowerChars host))

/-- The function `_url_domain` from `intelligence/correlation.py`: the parsed hostname of
a truthy URL (already lower-cased by `urlparse`), else `None`. -/
def _url_domain (url : Option String) : Option String :=
  match url with
  | none => none
  | some u => if u = "" then none else urlHostname u

/-- The function `build_incident_key` from `intelligence/correlation.py`. -/
def build_incident_key (event : Event) (normalized_fields : List (String × String)) :
    String :=
  let nf := normalized_fields
  let source := event.source.getD "unknown"
  let tenant_id := pyOrD event.tenant_id "tenant-unknown"
  let asset_id := pyOrD event.asset_id "asset-unknown"
  let source_ip := pyOrD (pyOr event.source_ip (nf.lookup "src_ip")) "ip-unknown"
  let destination := pyOrD event.destination "dest-unknown"
  if source = "mail" then
    let sender_domain :=
      pyOr (_email_domain event.smtp_mail_from) (_email_domain (nf.lookup "mail_from"))
    let rcpt_domain :=
      pyOr (_email_domain event.smtp_rcpt_to) (_email_domain (nf.lookup "rcpt_to"))
    "mail:" ++ tenant_id ++ ":" ++ asset_id ++ ":" ++ pyOrD sender_domain "sender-unknown" ++
      ":" ++ pyOrD rcpt_domain "rcpt-unknown" ++ ":" ++ source_ip
  else if source = "dns" then
    let query := pyOrD (pyOr event.dns_query (nf.lookup "domain")) destination
    let client_ip := pyOrD (pyOr event.client_ip (nf.lookup "src_ip")) source_ip
    "dns:" ++ tenant_id ++ ":" ++ asset_id ++ ":" ++ query ++ ":" ++ client_ip
  else
    let url_domain := pyOr (_url_domain event.url) (nf.lookup "domain")
    let primary := pyOrD (pyOr url_domain (nf.lookup "url")) destination
    source ++ ":" ++ tenant_id ++ ":" ++ asset_id ++ ":" ++ primary ++ ":" ++ source_ip

/-- One pending canonical field of `normalize_event_fields`: kept in the
output map only when its value is truthy (the source's final
`{k: v for k, v in fields.items() if v}`). -/
def entry (k : String) (v : Option String) : List (String × String) :=
  match v with
  | some s => if s = "" then [] else [(k, s)]
  | none => []

/-- The function `normalize_event_fields` from `intelligence/ioc_normalization.py`: the
canonical field map in its fixed key order, with the dns `domain` fallback to
`destination`, the mail `rcpt_to` fallback to `destination`, and falsy values
dropped. -/
def normalize_event_fields (event : Event) (metadata : List (String × String)) :
    List (String × String) :=
  let domain0 := if event.source == some "dns" then metadata.lookup "domain" else none
  let domain :=
    if event.source == some "dns" && !(truthy domain0) then event.destination else domain0
  let rcpt0 := pyOr (metadata.lookup "recipient") (metadata.lookup "rcpt_to")
  let rcpt :=
    if event.source == some "mail" && truthy event.destination && !(truthy rcpt0) then
      event.destination
    else rcpt0
  entry "src_ip" (pyOr event.source_ip (metadata.lookup "client_ip")) ++
    entry "dst_ip" (pyOr (metadata.lookup "destination_ip") (metadata.lookup "dst_ip")) ++
    entry "domain" domain ++
    entry "helo" (metadata.lookup "helo") ++
    entry "mail_from" (pyOr (metadata.lookup "sender") (metadata.lookup "mail_from")) ++
    entry "rcpt_to" rcpt ++
    entry "url" (metadata.lookup "url") ++
    entry "attachment_hash" (metadata.lookup "attachment_hash")

/-- Python `str.strip()`: whitespace removed from both ends. -/
def pyStrip (s : String) : String :=
  String.mk (((s.data.dropWhile Char.isWhitespace).reverse.dropWhile
    Char.isWhitespace).reverse)

/-- The function `normalize_indicator_value` from `intelligence/ioc_normalization.py`. -/
def normalize_indicator_value (indicator_type value : String) : String :=
  let cleaned := pyStrip value
  if indicator_type = "domain" ∨ indicator_type = "email" then pyLower cleaned
  else if indicator_type = "hash" then pyLower cleaned
  else if indicator_type = "url" then pyStrip cleaned
  else if indicator_type = "ip" then cleaned
  else cleaned

/-- Whether a character is an ASCII hexadecimal digit. -/
def isHexChar (c : Char) : Bool :=
  c.isDigit || (decide ('a' ≤ c) && decide (c ≤ 'f')) ||
    (decide ('A' ≤ c) && decide (c ≤ 'F'))

/-- Split a character list at every occurrence of `sep`
(Python `str.split(sep)`: empty pieces are kept). -/
def splitChar (sep : Char) : List Char → List (List Char)
  | [] => [[]]
  | c :: rest =>
    if c == sep then [] :: splitChar sep rest
    else
      match splitChar sep rest with
      | [] => [[c]]
      | p :: ps => (c :: p) :: ps

/-- The decimal value of a digit list. -/
def digitsVal (l : List Char) : ℕ :=
  l.foldl (fun a c => a * 10 + (c.toNat - '0'.toNat)) 0

/-- Modelled from Python's `ipaddress.ip_address` IPv4 acceptance: four
dot-separated decimal octets, each 1–3 digits, value at most 255, no leading
zeros. -/
def _valid_ipv4 (s : String) : Bool :=
  match splitChar '.' s.data with
  | [a, b, c, d] =>
    [a, b, c, d].all fun o =>
      decide (1 ≤ o.length) && decide (o.length ≤ 3) && o.all Char.isDigit &&
        (decide (o.length = 1) || !(o.headD ' ' == '0')) && decide (digitsVal o ≤ 255)
  | _ => false

/-- A valid IPv6 hextet: one to four hexadecimal digits. -/
def validHextet (g : List Char) : Bool :=
  decide (1 ≤ g.length) && decide (g.length ≤ 4) && g.all isHexChar

/-- Modelled from Python's `ipaddress.ip_address` IPv6 acceptance, restricted
to the colon-grouped forms the extractor's IPv6 pattern can produce (no
embedded IPv4 tail, no zone index): eight hextets, or a single `::`
compressing at least one zero group. -/
def _valid_ipv6 (s : String) : Bool :=
  match splitFirst "::".data s.data with
  | none =>
    let gs := splitChar ':' s.data
    decide (gs.length = 8) && gs.all validHextet
  | some (l, r) =>
    if (splitFirst "::".data r).isSome then false
    else
      let ls := if l.isEmpty then [] else splitChar ':' l
      let rs := if r.isEmpty then [] else splitChar ':' r
      ls.all validHextet && rs.all validHextet && decide (ls.length + rs.length ≤ 7)

/-- The function `_valid_ip` from `intelligence/ioc_normalization.py`: whether
`ipaddress.ip_address(value)` parses. -/
def _valid_ip (value : String) : Bool :=
  _valid_ipv4 value || _valid_ipv6 value

/-! ## Regex scans (`intelligence/ioc_normalization.py`)

Each compiled pattern of the source is embedded as a hand-translated matcher
over character lists.  A matcher receives the character before the current
position (for `\b` tests; `none` at the text edge) and the remaining text,
and returns the `re.findall` value together with the number of characters
the whole match consumes. -/

/-- Python's `\w` on the ASCII inputs at hand. -/
def isWordChar (c : Char) : Bool :=
  c.isAlpha || c.isDigit || c == '_'

/-- Whether the optional character beside a position is a word character
(`none` stands for the text edge). -/
def isWordO : Option Char → Bool
  | none => false
  | some c => isWordChar c

/-- The `\b` word-boundary test between two adjacent positions. -/
def isBoundary (prev next : Option Char) : Bool :=
  isWordO prev != isWordO next

/-- Left-to-right, non-overlapping scan of a matcher over the text, as
`re.findall` behaves for the nonempty-match patterns below; on a match the
scan resumes after the consumed characters, fuel-bounded by the text
length. -/
def findAllAux (m : Option Char → List Char → Option (String × ℕ)) :
    ℕ → Option Char → List Char → List String
  | 0, _, _ => []
  | _ + 1, _, [] => []
  | fuel + 1, prev, c :: rest =>
    match m prev (c :: rest) with
    | some (v, len) =>
      let jump := max 1 len
      v :: findAllAux m fuel ((c :: rest)[jump - 1]?) ((c :: rest).drop jump)
    | none => findAllAux m fuel (some c) rest

/-- Python `pattern.findall(text)` for one of the matchers below. -/
def findAll (m : Option Char → List Char → Option (String × ℕ))
    (text : List Char) : List String :=
  findAllAux m (text.length + 1) none text

/-- Characters of the email local part `[a-zA-Z0-9._%+\-]`. -/
def isEmailLocalChar (c : Char) : Bool :=
  c.isAlpha || c.isDigit || c == '.' || c == '_' || c == '%' || c == '+' || c == '-'

/-- Characters of the email domain part `[a-zA-Z0-9.\-]`. -/
def isEmailDomainChar (c : Char) : Bool :=
  c.isAlpha || c.isDigit || c == '.' || c == '-'

/-- Matcher for `EMAIL_RE` =
`\b[a-zA-Z0-9._%+\-]+@[a-zA-Z0-9.\-]+\.[a-zA-Z]{2,}\b`: a leading `\b`, the
greedy local run, `@`, then the greedy backtracking split of the domain run
into `[a-zA-Z0-9.\-]+ \. [a-zA-Z]{2,}` ending at a `\b` (the local run
cannot be shortened usefully because `@` is not a local character). -/
def emailMatcher (prev : Option Char) (s : List Char) : Option (String × ℕ) :=
  let loc := s.takeWhile isEmailLocalChar
  if loc.isEmpty then none
  else if !(isBoundary prev s.head?) then none
  else
    match s.drop loc.length with
    | '@' :: rest =>
      let d := rest.takeWhile isEmailDomainChar
      (List.range d.length).reverse.findSome? fun a =>
        if decide (1 ≤ a) && (d[a]? == some '.') then
          let tail := rest.drop (a + 1)
          let e := tail.takeWhile Char.isAlpha
          (List.range (e.length + 1)).reverse.findSome? fun k =>
            if decide (2 ≤ k) && !(isWordO tail[k]?) then
              some (String.mk (loc ++ '@' :: (rest.take a ++ '.' :: tail.take k)),
                loc.length + 1 + a + 1 + k)
            else none
        else none
    | _ => none

/-- Characters of the URL body `[^\s<>()]`. -/
def isUrlChar (c : Char) : Bool :=
  !c.isWhitespace && !(c == '<') && !(c == '>') && !(c == '(') && !(c == ')')

/-- Matcher for `URL_RE` = `\bhttps?://[^\s<>()]+\b`: a leading `\b`,
`http` with the optional `s` tried greedily, `://`, then the greedy
backtracking body run ending at a `\b`. -/
def urlMatcher (prev : Option Char) (s : List Char) : Option (String × ℕ) :=
  if !(isBoundary prev s.head?) then none
  else
    let tryTail := fun (pre : List Char) =>
      let rest0 := s.drop pre.length
      if pre.isPrefixOf s && "://".data.isPrefixOf rest0 then
        let body := rest0.drop 3
        let r := body.takeWhile isUrlChar
        (List.range (r.length + 1)).reverse.findSome? fun k =>
          if decide (1 ≤ k) && isBoundary r[k - 1]? body[k]? then
            some (String.mk (pre ++ "://".data ++ r.take k), pre.length + 3 + k)
          else none
      else none
    match tryTail "https".data with
    | some res => some res
    | none => tryTail "http".data

/-- Matcher for `HASH_RE` =
`\b[a-fA-F0-9]{32}\b|\b[a-fA-F0-9]{40}\b|\b[a-fA-F0-9]{64}\b`: a maximal hex
run of exactly 32, 40 or 64 characters delimited by word boundaries (a
longer run leaves a hex word character adjacent to every candidate cut, so
every alternative fails). -/
def hashMatcher (prev : Option Char) (s : List Char) : Option (String × ℕ) :=
  let h := s.takeWhile isHexChar
  if h.isEmpty || !(isBoundary prev s.head?) then none
  else if (decide (h.length = 32) || decide (h.length = 40) || decide (h.length = 64))
      && !(isWordO s[h.length]?) then
    some (String.mk h, h.length)
  else none

/-- Matcher for `IPV4_RE` = `\b(?:(?:\d{1,3}\.){3}\d{1,3})\b`: each
`\d{1,3}\.` group collapses to "a 1–3 digit run followed by `.`" (a longer
digit run leaves a digit where the dot must be, for every backtracking
choice), and the final run must end at a `\b`. -/
def ipv4Matcher (prev : Option Char) (s : List Char) : Option (String × ℕ) :=
  if !(isBoundary prev s.head?) then none
  else
    let step := fun (l : List Char) =>
      let ds := l.takeWhile Char.isDigit
      if decide (1 ≤ ds.length) && decide (ds.length ≤ 3) && (l[ds.length]? == some '.') then
        some (ds.length + 1)
      else none
    match step s with
    | none => none
    | some n1 =>
      match step (s.drop n1) with
      | none => none
      | some n2 =>
        match step (s.drop (n1 + n2)) with
        | none => none
        | some n3 =>
          let rest := s.drop (n1 + n2 + n3)
          let ds := rest.takeWhile Char.isDigit
          if decide (1 ≤ ds.length) && decide (ds.length ≤ 3) &&
              !(isWordO rest[ds.length]?) then
            some (String.mk (s.take (n1 + n2 + n3 + ds.length)), n1 + n2 + n3 + ds.length)
          else none

/-- The deterministic `[0-9a-fA-F]{0,4}:` group sequence of `IPV6_RE` from a
position (a hex run longer than four leaves a hex character where the colon
must be, for every backtracking choice); returns each group's consumed
length, fuel-bounded. -/
def ipv6Groups : ℕ → List Char → List ℕ
  | 0, _ => []
  | fuel + 1, l =>
    let h := l.takeWhile isHexChar
    if decide (h.length ≤ 4) && (l[h.length]? == some ':') then
      (h.length + 1) :: ipv6Groups fuel (l.drop (h.length + 1))
    else []

/-- Matcher for `IPV6_RE` = `\b(?:[0-9a-fA-F]{0,4}:){2,7}[0-9a-fA-F]{0,4}\b`:
group counts are tried from `min(available, 7)` down to 2, the final hex run
(at most 4) greedily backtracks to end at a `\b`. -/
def ipv6Matcher (prev : Option Char) (s : List Char) : Option (String × ℕ) :=
  if !(isBoundary prev s.head?) then none
  else
    let gs := ipv6Groups (s.length + 1) s
    (List.range (min gs.length 7 + 1)).reverse.findSome? fun n =>
      if decide (2 ≤ n) then
        let consumed := (gs.take n).foldl (· + ·) 0
        let tail := s.drop consumed
        let e := (tail.takeWhile isHexChar).take 4
        (List.range (e.length + 1)).reverse.findSome? fun k =>
          let lastC := if k = 0 then s[consumed - 1]? else tail[k - 1]?
          if isBoundary lastC tail[k]? then
            some (String.mk (s.take (consumed + k)), consumed + k)
          else none
      else none

/-- Characters of a domain label `[a-zA-Z0-9\-]`. -/
def isLabelChar (c : Char) : Bool :=
  c.isAlpha || c.isDigit || c == '-'

/-- The deterministic `([a-zA-Z0-9\-]+\.)` iteration sequence of `DOMAIN_RE`
from a position (a label contains no dot, so intra-label backtracking
collapses); returns each iteration's consumed length, fuel-bounded. -/
def domainGroups : ℕ → List Char → List ℕ
  | 0, _ => []
  | fuel + 1, l =>
    let lab := l.takeWhile isLabelChar
    if decide (1 ≤ lab.length) && (l[lab.length]? == some '.') then
      (lab.length + 1) :: domainGroups fuel (l.drop (lab.length + 1))
    else []

/-- Matcher for `DOMAIN_RE` =
`\b(?!https?://)([a-zA-Z0-9\-]+\.)+[a-zA-Z]{2,}\b`.  Because the pattern has
a capture group, `re.findall` returns the group — the `label.` chunk of the
LAST repetition taken — not the whole match; the returned value is that
group, the consumed length the whole match's. -/
def domainMatcher (prev : Option Char) (s : List Char) : Option (String × ℕ) :=
  if !(isBoundary prev s.head?) then none
  else if "http://".data.isPrefixOf s || "https://".data.isPrefixOf s then none
  else
    let gs := domainGroups (s.length + 1) s
    (List.range (gs.length + 1)).reverse.findSome? fun n =>
      if decide (1 ≤ n) then
        let consumed := (gs.take n).foldl (· + ·) 0
        let tail := s.drop consumed
        let e := tail.takeWhile Char.isAlpha
        (List.range (e.length + 1)).reverse.findSome? fun k =>
          if decide (2 ≤ k) && !(isWordO tail[k]?) then
            let before := (gs.take (n - 1)).foldl (· + ·) 0
            some (String.mk ((s.drop before).take (consumed - before)), consumed + k)
          else none
      else none

/-- The function `_extract_from_text` from `intelligence/ioc_normalization.py`: the six
pattern scans in source order; IPv4/IPv6 candidates are kept only when
`_valid_ip` accepts them; every URL match also contributes its parsed
hostname as a domain candidate. -/
def _extract_from_text (text : String) : List (String × String) :=
  let cs := text.data
  (((findAll ipv4Matcher cs).filter _valid_ip).map fun v =>
      ("ip", normalize_indicator_value "ip" v)) ++
    (((findAll ipv6Matcher cs).filter _valid_ip).map fun v =>
      ("ip", normalize_indicator_value "ip" v)) ++
    ((findAll emailMatcher cs).map fun v =>
      ("email", normalize_indicator_value "email" v)) ++
    ((findAll urlMatcher cs).flatMap fun v =>
      ("url", normalize_indicator_value "url" v) ::
        (match urlHostname v with
         | some h => [("domain", normalize_indicator_value "domain" h)]
         | none => [])) ++
    ((findAll hashMatcher cs).map fun v =>
      ("hash", normalize_indicator_value "hash" v)) ++
    ((findAll domainMatcher cs).map fun v =>
      ("domain", normalize_indicator_value "domain" v))

/-- Python `pattern.fullmatch(value)` for the matchers above: the match attempt at
position 0 (text edges as boundaries) consumes the entire string. -/
def fullmatch (m : Option Char → List Char → Option (String × ℕ))
    (value : String) : Bool :=
  match m none value.data with
  | some (_, len) => decide (len = value.data.length)
  | none => false

/-- The function `guess_indicator_type` from `intelligence/ioc_normalization.py`: strict
priority order — IP parse, then email, URL, hash and domain full matches. -/
def guess_indicator_type (value : String) : Option String :=
  if _valid_ip value then some "ip"
  else if fullmatch emailMatcher value then some "email"
  else if fullmatch urlMatcher value then some "url"
  else if fullmatch hashMatcher value then some "hash"
  else if fullmatch domainMatcher value then some "domain"
  else none

/-- An extracted indicator candidate. -/
structure IOC where
  indicator_type : String
  value : String
  matched_field : String
  matched_value : String
deriving DecidableEq, Repr

/-- The dict key `(indicator_type, value, matched_field)` used for
deduplication. -/
def IOC.dedupKey (i : IOC) : String × String × String :=
  (i.indicator_type, i.value, i.matched_field)

/-- Python dict-overwrite deduplication: keys keep their first-insertion
position, each mapped to the last record inserted under it. -/
def dedupIOCs (l : List IOC) : List IOC :=
  let keys := l.foldl
    (fun acc i => if acc.contains i.dedupKey then acc else acc ++ [i.dedupKey]) []
  keys.filterMap fun k => l.reverse.find? fun i => i.dedupKey == k

/-- The function `extract_event_indicators` from `intelligence/ioc_normalization.py`:
typed canonical fields first, then the free-text scan of the raw body
attributed to `matched_field = "raw"`, deduplicated dict-style. -/
def extract_event_indicators (event : Event) (metadata : List (String × String)) :
    List IOC :=
  let normalized_fields := normalize_event_fields event metadata
  let fieldIocs := normalized_fields.filterMap fun kv =>
    match guess_indicator_type kv.2 with
    | some t => some ⟨t, normalize_indicator_value t kv.2, kv.1, kv.2⟩
    | none => none
  let rawIocs := (_extract_from_text event.raw).map fun tv =>
    (⟨tv.1, tv.2, "raw", tv.2⟩ : IOC)
  dedupIOCs (fieldIocs ++ rawIocs)

/-! ## Rule evaluation (`intelligence/threat_detection.py`) -/

/-- A detection record as built by `evaluate_event` and `ingest_event`. -/
structure Detection where
  event_id : ℕ
  detection_type : String
  severity : String
  confidence : ℤ
  rule : String
  created_at : String
deriving DecidableEq, Repr

/-- The function `evaluate_event` from `intelligence/threat_detection.py`, for an event
already stored with rowid `event_id`.  The regex test
`re.search(pattern, str(target), re.IGNORECASE)` over the arbitrary
configured pattern is abstracted as the boolean oracle `search`; metadata
values are strings. -/
def evaluate_event (search : String → String → Bool) (event_id : ℕ) (raw : String)
    (metadata : List (String × String)) (created_at : String) (rules : List Rule) :
    List Detection :=
  rules.filterMap fun rule =>
    let field := rule.field.getD "raw"
    let target := if field = "raw" then raw else (metadata.lookup field).getD ""
    if truthy rule.pattern && search (rule.pattern.getD "") target then
      let cs := score_detection rule
      some ⟨event_id, rule.type.getD "unknown", cs.2, cs.1, rule.name.getD "rule", created_at⟩
    else none

/-! ## Storage state (`storage/database.py`) -/

/-- A row of the `incidents` table (columns the embedded functions touch). -/
structure IncidentRow where
  key : String
  severity : String
  count : ℕ
  first_seen : String
  last_seen : String
  case_id : Option ℕ
deriving DecidableEq, Repr

/-- A row of the `cases` table (columns the embedded functions touch). -/
structure CaseRow where
  id : ℕ
  incident_key : String
  title : String
  status : String
  owner : Option String
  severity : String
  created_at : String
  updated_at : String
deriving DecidableEq, Repr

/-- A row of the `sightings` table. -/
structure SightingRow where
  id : ℕ
  indicator_id : ℕ
  event_id : ℕ
  matched_field : String
  matched_value : String
  timestamp : String
  context : Option String
  score_delta : ℤ
deriving DecidableEq, Repr

/-- The tables the embedded storage functions touch, plus the next
`AUTOINCREMENT` rowids (sqlite rowids start at 1). -/
structure Store where
  incidents : List IncidentRow
  cases : List CaseRow
  sightings : List SightingRow
  nextCaseId : ℕ
  nextSightingId : ℕ
deriving DecidableEq, Repr

/-- A freshly initialised database. -/
def emptyStore : Store := ⟨[], [], [], 1, 1⟩

/-- The values bound in `INSERT INTO sightings`. -/
structure SightingData where
  indicator_id : ℕ
  event_id : ℕ
  matched_field : String
  matched_value : String
  timestamp : String
  context : Option String
  score_delta : ℤ
deriving DecidableEq, Repr

/-- The `UNIQUE(indicator_id, event_id, matched_field, matched_value)` key of
a stored sighting row. -/
def SightingRow.key (r : SightingRow) : ℕ × ℕ × String × String :=
  (r.indicator_id, r.event_id, r.matched_field, r.matched_value)

/-- The unique key of a sighting about to be inserted. -/
def SightingData.key (s : SightingData) : ℕ × ℕ × String × String :=
  (s.indicator_id, s.event_id, s.matched_field, s.matched_value)

/-- The function `insert_sighting`: `INSERT OR IGNORE` under the sightings unique key; a
conflicting insert changes nothing and returns no rowid (`rowcount == 0`
makes the function return `None`). -/
def insert_sighting (st : Store) (s : SightingData) : Store × Option ℕ :=
  if st.sightings.any fun r => r.key == s.key then (st, none)
  else
    let id := st.nextSightingId
    ({ st with
        sightings := st.sightings ++
          [⟨id, s.indicator_id, s.event_id, s.matched_field, s.matched_value,
            s.timestamp, s.context, s.score_delta⟩],
        nextSightingId := id + 1 },
      some id)

/-- The function `_ensure_case_for_incident`: returns `None` without touching the cases
table unless `severity.lower()` is high/critical; otherwise updates the
existing case's `severity`/`updated_at` in place, or inserts a fresh open
case titled `Incident {key}`. -/
def _ensure_case_for_incident (st : Store) (incident_key severity timestamp : String) :
    Store × Option ℕ :=
  if !(pyLower severity == "high" || pyLower severity == "critical") then (st, none)
  else
    match st.cases.find? fun c => c.incident_key == incident_key with
    | some existing =>
      ({ st with
          cases := st.cases.map fun c =>
            if c.incident_key == incident_key then
              { c with updated_at := timestamp, severity := severity }
            else c },
        some existing.id)
    | none =>
      let id := st.nextCaseId
      ({ st with
          cases := st.cases ++
            [⟨id, incident_key, "Incident " ++ incident_key, "open", none, severity,
              timestamp, timestamp⟩],
          nextCaseId := id + 1 },
        some id)

/-- The function `update_incident`: select the incident row for `key`, ensure/locate its
case, then either bump the existing row (`count + 1`, new
`last_seen`/`severity`/`case_id`) or insert a fresh row with `count = 1`. -/
def update_incident (st : Store) (key severity timestamp : String) : Store :=
  let existing := st.incidents.find? fun r => r.key == key
  let ensured := _ensure_case_for_incident st key severity timestamp
  let case_id := ensured.2
  let st' := ensured.1
  match existing with
  | some _ =>
    { st' with
        incidents := st'.incidents.map fun r =>
          if r.key == key then
            { r with
                count := r.count + 1
                last_seen := timestamp
                severity := severity
                case_id := case_id }
          else r }
  | none =>
    { st' with
        incidents := st'.incidents ++ [⟨key, severity, 1, timestamp, timestamp, case_id⟩] }

/-- One `update_incident` call's arguments. -/
structure IncidentOp where
  key : String
  severity : String
  timestamp : String
deriving DecidableEq, Repr

/-- A sequence of `update_incident` calls against a fresh database. -/
def runIncidents (ops : List IncidentOp) : Store :=
  ops.foldl (fun st op => update_incident st op.key op.severity op.timestamp) emptyStore

/-- The `count` column of the incident row for `k` (0 when absent). -/
def incidentCount (st : Store) (k : String) : ℕ :=
  match st.incidents.find? fun r => r.key == k with
  | some r => r.count
  | none => 0

/-! ## The per-match sighting loop of `ingest_event` (`api/app.py`) -/

/-- An indicator row as consulted inside the `ingest_event` match loop. -/
structure IndicatorMatch where
  id : ℕ
  indicator_type : String
  source : String
  confidence : ℤ
  severity : String
deriving DecidableEq, Repr

/-- One iteration of the match loop in `ingest_event`: compute the score
delta, attempt the sighting insert, and only on a fresh (truthy) rowid append
the synthetic `cti_match` detection. -/
def processMatch (st : Store) (dets : List Detection) (event_id : ℕ)
    (matched_field matched_value : String) (m : IndicatorMatch)
    (now : String) (context : Option String) : Store × List Detection :=
  let score_delta := score_sighting m.confidence m.severity
  let r := insert_sighting st
    ⟨m.id, event_id, matched_field, matched_value, now, context, score_delta⟩
  if r.2.getD 0 ≠ 0 then
    (r.1, dets ++ [⟨event_id, "cti_match", m.severity, m.confidence,
      m.source ++ ":" ++ m.indicator_type, now⟩])
  else (r.1, dets)

/-- The arguments of one `processMatch` iteration. -/
structure MatchOp where
  event_id : ℕ
  matched_field : String
  matched_value : String
  indicator : IndicatorMatch
  now : String
  context : Option String
deriving DecidableEq, Repr

/-- The sighting unique key an iteration inserts under. -/
def MatchOp.key (op : MatchOp) : ℕ × ℕ × String × String :=
  (op.indicator.id, op.event_id, op.matched_field, op.matched_value)

/-- Run a sequence of match-loop iterations from a given store and
detection list. -/
def runMatchesFrom (st : Store) (dets : List Detection) (ops : List MatchOp) :
    Store × List Detection :=
  ops.foldl
    (fun acc op => processMatch acc.1 acc.2 op.event_id op.matched_field
      op.matched_value op.indicator op.now op.context)
    (st, dets)

/-- Run a sequence of match-loop iterations against a fresh database,
starting from the detections `dets` already produced by the rule engine. -/
def runMatches (dets : List Detection) (ops : List MatchOp) : Store × List Detection :=
  runMatchesFrom emptyStore dets ops

/-! ## Schema constraints (`storage/database.py`, `SCHEMA`) -/

/-- A table's declared columns and `UNIQUE` constraints, transliterated from
the `CREATE TABLE` statements in `SCHEMA`. -/
structure TableSchema where
  name : String
  columns : List String
  uniques : List (List String)
deriving DecidableEq, Repr

/-- The `incidents` table of `SCHEMA`: no `UNIQUE` constraint is declared. -/
def incidentsTable : TableSchema :=
  ⟨"incidents", ["id", "key", "severity", "count", "first_seen", "last_seen", "case_id"], []⟩

/-- The `cases` table of `SCHEMA`, with `UNIQUE(incident_key)`. -/
def casesTable : TableSchema :=
  ⟨"cases",
    ["id", "incident_key", "title", "status", "owner", "severity", "sla_due_at",
      "created_at", "updated_at", "summary", "tags"],
    [["incident_key"]]⟩

/-- The `sightings` table of `SCHEMA`, with
`UNIQUE(indicator_id, event_id, matched_field, matched_value)`. -/
def sightingsTable : TableSchema :=
  ⟨"sightings",
    ["id", "indicator_id", "event_id", "matched_field", "matched_value",
      "timestamp", "context", "score_delta"],
    [["indicator_id", "event_id", "matched_field", "matched_value"]]⟩

/-! ## Theorems -/

set_option maxRecDepth 100000

/-- The severity base is always one of the four table values or the
default 20. -/
theorem severityBase_mem (s : String) : severityBase s ∈ [10, 30, 60, 90, 20] := by
  simp only [severityBase, SEVERITY_SCORES, List.lookup]
  repeat' split <;> simp_all

/-- On the finite domain of clamped confidences and severity bases, the float
pipeline agrees with the exact floor formula except at base 90 with
confidence 70. -/
theorem scoreCore_eq_floor :
    ∀ c < 101, ∀ b ∈ [10, 30, 60, 90, 20], (b = 90 → c ≠ 70) →
      scoreCore b c = b * c / 100 := by decide

/-- C5 counterexample: at confidence 70 and severity `"critical"` the code
returns 62, not `floor(90 · 70 / 100) = 63` — Python's float product
`90 * 0.7` rounds below the exact integer. -/
theorem score_sighting_not_floor :
    score_sighting 70 "critical" = 62 ∧ (90 * 70) / 100 = 63 := by
  constructor
  · decide
  · norm_num

/-- C5 amended: for every severity string and integer confidence,
`score_sighting` equals `floor(base · clamp(confidence, 0, 100) / 100)` with
the claimed per-tier bases — except when the base is 90 (severity critical)
and the clamped confidence is 70, where float rounding yields 62 instead
of 63. -/
theorem score_sighting_floor (confidence : ℤ) (severity : String)
    (h : severityBase severity = 90 → (max 0 (min confidence 100)).toNat ≠ 70) :
    score_sighting confidence severity =
      ((severityBase severity * (max 0 (min confidence 100)).toNat) / 100 : ℕ) := by
  have hc : (max 0 (min confidence 100)).toNat < 101 := by omega
  have key := scoreCore_eq_floor (max 0 (min confidence 100)).toNat hc
    (severityBase severity) (severityBase_mem severity) h
  unfold score_sighting
  exact_mod_cast key

/-- C5 witness: the amended theorem applied at confidence 50, severity
`"high"` yields the spec's example value 30. -/
theorem score_sighting_floor_witness : score_sighting 50 "high" = 30 := by
  have h := score_sighting_floor 50 "high" (by decide)
  rw [h]
  decide

/-- C8: every rule whose (truthy) pattern matches its resolved target value
contributes a detection whose confidence is `clamp(base_score, 1, 100)`
(base 50 when absent) and whose severity is bucketed ≥85 critical,
≥70 high, ≥40 medium, else low. -/
theorem evaluate_event_confidence_severity
    (search : String → String → Bool) (event_id : ℕ) (raw : String)
    (metadata : List (String × String)) (created_at : String) (rules : List Rule)
    (rule : Rule) (hmem : rule ∈ rules)
    (hpat : truthy rule.pattern = true)
    (hsearch : search (rule.pattern.getD "")
      (if rule.field.getD "raw" = "raw" then raw
       else (metadata.lookup (rule.field.getD "raw")).getD "") = true) :
    ∃ d ∈ evaluate_event search event_id raw metadata created_at rules,
      d.confidence = max 1 (min 100 (rule.base_score.getD 50)) ∧
      d.severity = (if 85 ≤ d.confidence then "critical"
        else if 70 ≤ d.confidence then "high"
        else if 40 ≤ d.confidence then "medium" else "low") := by
  refine ⟨⟨event_id, rule.type.getD "unknown", (score_detection rule).2,
    (score_detection rule).1, rule.name.getD "rule", created_at⟩, ?_, ?_, ?_⟩
  · apply List.mem_filterMap.mpr
    refine ⟨rule, hmem, ?_⟩
    simp only [hpat, hsearch, Bool.and_self, if_true]
  · rfl
  · rfl

/-- C8 witness: a one-rule configuration with base score 91 and an
always-true search oracle yields a critical detection of confidence 91. -/
theorem evaluate_event_confidence_severity_witness :
    ∃ d ∈ evaluate_event (fun _ _ => true) 1 "raw body" [] "t"
        [⟨some "r1", none, some "evil", some "phish", some 91⟩],
      d.confidence = max 1 (min 100 ((some (91 : ℤ)).getD 50)) ∧
      d.severity = (if 85 ≤ d.confidence then "critical"
        else if 70 ≤ d.confidence then "high"
        else if 40 ≤ d.confidence then "medium" else "low") :=
  evaluate_event_confidence_severity (fun _ _ => true) 1 "raw body" [] "t"
    [⟨some "r1", none, some "evil", some "phish", some 91⟩]
    ⟨some "r1", none, some "evil", some "phish", some 91⟩
    (List.mem_singleton.mpr rfl) (by decide) rfl

/-- Looking a key up after filtering that key out always misses. -/
theorem lookup_filter_ne {α β : Type} [BEq α] [LawfulBEq α]
    (l : List (α × β)) (k : α) :
    (l.filter fun kv => !(kv.1 == k)).lookup k = none := by
  induction l with
  | nil => rfl
  | cons p rest ih =>
    by_cases h : p.1 = k
    · simpa [List.filter, h] using ih
    · have hb : (p.1 == k) = false := beq_eq_false_iff_ne.mpr h
      have hb' : (k == p.1) = false := beq_eq_false_iff_ne.mpr (Ne.symm h)
      simp [List.filter, List.lookup, hb, hb', ih]

/-- C6: after `set` at time `t`, a `get` strictly before `t + ttl` returns
the stored list (cache untouched); a `get` at or after `t + ttl` misses and
evicts the entry; the default TTL is 300 seconds. -/
theorem hot_cache_ttl (α : Type) (c : HotIndicatorCache α) (t now : ℤ)
    (itype value : String) (data : List α) :
    (now < t + c.ttl →
      (c.set t itype value data).get now itype value =
        (c.set t itype value data, some data)) ∧
    (t + c.ttl ≤ now →
      ((c.set t itype value data).get now itype value).2 = none ∧
      ((c.set t itype value data).get now itype value).1.store.lookup
        (itype, value) = none) ∧
    (HotIndicatorCache.initDefault α).ttl = 300 := by
  refine ⟨fun hlt => ?_, fun hle => ?_, rfl⟩
  · simp only [HotIndicatorCache.get, HotIndicatorCache.set, List.lookup, beq_self_eq_true,
      if_pos rfl]
    rw [if_neg (by omega)]
  · have hget : (c.set t itype value data).get now itype value =
        ({ c.set t itype value data with
            store := (c.set t itype value data).store.filter
              fun kv => !(kv.1 == (itype, value)) }, none) := by
      simp only [HotIndicatorCache.get, HotIndicatorCache.set, List.lookup, beq_self_eq_true,
        if_pos rfl]
      rw [if_pos (by omega)]
    rw [hget]
    exact ⟨rfl, lookup_filter_ne _ _⟩

/-- C6 witness: with the default 300 second TTL, an empty list cached at
time 0 hits at 299 seconds and misses (and is evicted) at 301 seconds. -/
theorem hot_cache_ttl_witness :
    ((HotIndicatorCache.initDefault ℕ).set 0 "ip" "1.2.3.4" []).get 299 "ip" "1.2.3.4" =
      ((HotIndicatorCache.initDefault ℕ).set 0 "ip" "1.2.3.4" [], some []) ∧
    (((HotIndicatorCache.initDefault ℕ).set 0 "ip" "1.2.3.4" []).get 301 "ip"
        "1.2.3.4").2 = none := by
  constructor
  · exact (hot_cache_ttl ℕ (HotIndicatorCache.initDefault ℕ) 0 299 "ip" "1.2.3.4" []).1
      (by decide)
  · exact ((hot_cache_ttl ℕ (HotIndicatorCache.initDefault ℕ) 0 301 "ip" "1.2.3.4" []).2.1
      (by decide)).1

/-- Lemma: `_ensure_case_for_incident` never touches the incidents table. -/
theorem ensure_case_incidents (st : Store) (k severity timestamp : String) :
    (_ensure_case_for_incident st k severity timestamp).1.incidents = st.incidents := by
  unfold _ensure_case_for_incident
  split
  · rfl
  · split <;> rfl

/-- Lemma: `List.find?` over a key-preserving map finds the image of the original
row. -/
theorem find?_key_map (l : List IncidentRow) (f : IncidentRow → IncidentRow)
    (hf : ∀ r, (f r).key = r.key) (k : String) :
    ((l.map f).find? fun r => r.key == k) = (l.find? fun r => r.key == k).map f := by
  induction l with
  | nil => rfl
  | cons a rest ih =>
    by_cases h : a.key == k
    · simp [List.find?, hf, h]
    · simp only [List.map_cons, List.find?, hf, h]
      exact ih

/-- Lemma: `List.find?` over an append looks in the left part first. -/
theorem find?_append_cases {α : Type} (p : α → Bool) (l₁ l₂ : List α) :
    (l₁ ++ l₂).find? p =
      (match l₁.find? p with
       | some x => some x
       | none => l₂.find? p) := by
  induction l₁ with
  | nil => rfl
  | cons a rest ih =>
    by_cases h : p a
    · simp [List.find?, h]
    · simp only [List.cons_append, List.find?, h]
      exact ih

/-- How one `update_incident` changes the number of rows per key: a fresh key
gains its single row, everything else is left as it was. -/
theorem update_incident_countP (st : Store) (k severity timestamp k' : String) :
    ((update_incident st k severity timestamp).incidents.countP fun r => r.key == k') =
      if k' = k ∧ (st.incidents.countP fun r => r.key == k) = 0 then
        (st.incidents.countP fun r => r.key == k') + 1
      else (st.incidents.countP fun r => r.key == k') := by
  unfold update_incident
  dsimp only
  rw [ensure_case_incidents]
  rcases hfind : st.incidents.find? fun r => r.key == k with _ | r0
  · -- no existing row: the countP for `k` is zero and a row is appended
    rw [hfind]
    have hzero : (st.incidents.countP fun r => r.key == k) = 0 := by
      rw [List.countP_eq_zero]
      intro a ha
      exact List.find?_eq_none.mp hfind a ha
    simp only [List.countP_append]
    by_cases hk : k' = k
    · subst hk
      simp [hzero, List.countP_cons]
    · have : (k == k') = false := beq_eq_false_iff_ne.mpr fun h => hk h.symm
      simp [hk, List.countP_cons, this]
  · -- existing row: the map preserves every key, so every countP is unchanged
    rw [hfind]
    have hmap : ∀ r : IncidentRow,
        ((if r.key == k then
            { r with
                count := r.count + 1
                last_seen := timestamp
                severity := severity
                case_id := (_ensure_case_for_incident st k severity timestamp).2 }
          else r).key == k') = (r.key == k') := by
      intro r
      split <;> rfl
    have hne : ¬ (k' = k ∧ (st.incidents.countP fun r => r.key == k) = 0) := by
      rintro ⟨hk, hzero⟩
      have hall := List.countP_eq_zero.mp hzero r0 (List.mem_of_find?_eq_some hfind)
      have hp := List.find?_some hfind
      exact hall hp
    rw [if_neg hne]
    simp only [List.countP_map]
    exact List.countP_congr fun r _ => by
      simp only [Function.comp_apply, hmap r]

/-- Folding `update_incident` calls keeps at most one incident row per key:
the row count for a key is one exactly when the key was already present or
some processed call used it. -/
theorem foldIncidents_countP (ops : List IncidentOp) (st : Store) (k : String)
    (hst : (st.incidents.countP fun r => r.key == k) ≤ 1) :
    (((ops.foldl (fun s op => update_incident s op.key op.severity op.timestamp)
        st).incidents.countP fun r => r.key == k) =
      if (st.incidents.countP fun r => r.key == k) = 1 ∨ (∃ op ∈ ops, op.key = k)
      then 1 else 0) := by
  induction ops generalizing st with
  | nil =>
    simp only [List.foldl_nil, List.not_mem_nil, false_and, exists_false, or_false]
    rcases Nat.le_one_iff_eq_zero_or_eq_one.mp hst with h | h <;> simp [h]
  | cons op rest ih =>
    rw [List.foldl_cons]
    have hstep := update_incident_countP st op.key op.severity op.timestamp k
    have hnext : ((update_incident st op.key op.severity op.timestamp).incidents.countP
        fun r => r.key == k) ≤ 1 := by
      rw [hstep]
      split
      · rename_i hcond
        rw [hcond.1] at hst ⊢
        omega
      · exact hst
    rw [ih _ hnext, hstep]
    by_cases hk : k = op.key
    · subst hk
      have hex : ∃ x ∈ op :: rest, x.key = op.key := ⟨op, List.mem_cons_self op rest, rfl⟩
      rcases Nat.le_one_iff_eq_zero_or_eq_one.mp hst with hz | ho
      · simp [hz, hex]
      · simp [ho, hex]
    · have hcond : ¬(k = op.key ∧ (st.incidents.countP fun r => r.key == op.key) = 0) :=
        fun h => hk h.1
      rw [if_neg hcond]
      have hiff : (∃ x ∈ op :: rest, x.key = k) ↔ (∃ x ∈ rest, x.key = k) := by
        simp only [List.mem_cons]
        constructor
        · rintro ⟨x, hx | hx, hxs⟩
          · exact absurd (hx ▸ hxs) fun h => hk h.symm
          · exact ⟨x, hx, hxs⟩
        · rintro ⟨x, hx, hxs⟩
          exact ⟨x, Or.inr hx, hxs⟩
      simp only [hiff]

/-- Each incident row's count never decreases across an `update_incident`. -/
theorem update_incident_count_mono (st : Store) (k severity timestamp k' : String) :
    incidentCount st k' ≤ incidentCount (update_incident st k severity timestamp) k' := by
  unfold incidentCount update_incident
  dsimp only
  rw [ensure_case_incidents]
  rcases hfind : st.incidents.find? fun r => r.key == k with _ | r0
  · rw [hfind]
    simp only
    rw [find?_append_cases]
    rcases hk' : st.incidents.find? fun r => r.key == k' with _ | r1
    · rw [hk']
      dsimp only
      split <;> simp
    · rw [hk']
  · rw [hfind]
    simp only
    rw [find?_key_map _ _ (fun r => by split <;> rfl) k']
    rcases hk' : st.incidents.find? fun r => r.key == k' with _ | r1
    · rw [hk']
      simp [Option.map]
    · rw [hk']
      simp only [Option.map]
      split <;> simp

/-- C2 counterexample: the `incidents` CREATE TABLE declares no UNIQUE
constraint on `key` (the schema's incident-key constraint lives on
`cases.incident_key`), so uniqueness is not schema-enforced. -/
theorem incidents_key_not_unique_constrained :
    ¬ ["key"] ∈ incidentsTable.uniques ∧ ["incident_key"] ∈ casesTable.uniques := by
  decide

/-- C2 amended: every sequence of `update_incident` calls on a fresh store
keeps exactly one incident row per distinct key (thanks to the in-code
existence check, not a schema constraint — the incidents table declares no
UNIQUE), and each row's count is monotonically non-decreasing. -/
theorem incident_unique_sequential_and_monotone :
    (∀ ops k, ((runIncidents ops).incidents.countP fun r => r.key == k) =
      if ∃ op ∈ ops, op.key = k then 1 else 0) ∧
    (∀ st k severity timestamp k',
      incidentCount st k' ≤ incidentCount (update_incident st k severity timestamp) k') ∧
    incidentsTable.uniques = [] := by
  refine ⟨fun ops k => ?_, update_incident_count_mono, rfl⟩
  have h := foldIncidents_countP ops emptyStore k (by simp [emptyStore])
  simpa [runIncidents, emptyStore] using h

/-- A non-high/critical severity makes `_ensure_case_for_incident` a no-op
returning `None`. -/
theorem ensure_case_noop (st : Store) (k severity timestamp : String)
    (h1 : pyLower severity ≠ "high") (h2 : pyLower severity ≠ "critical") :
    _ensure_case_for_incident st k severity timestamp = (st, none) := by
  unfold _ensure_case_for_incident
  rw [if_pos]
  simp [beq_eq_false_iff_ne.mpr h1, beq_eq_false_iff_ne.mpr h2]

/-- Lemma: `update_incident` passes the cases table through from
`_ensure_case_for_incident` unchanged. -/
theorem update_incident_cases (st : Store) (k severity timestamp : String) :
    (update_incident st k severity timestamp).cases =
      (_ensure_case_for_incident st k severity timestamp).1.cases := by
  unfold update_incident
  dsimp only
  split <;> rfl

/-- A non-high/critical `update_incident` leaves the cases table untouched. -/
theorem update_incident_cases_noop (st : Store) (k severity timestamp : String)
    (h1 : pyLower severity ≠ "high") (h2 : pyLower severity ≠ "critical") :
    (update_incident st k severity timestamp).cases = st.cases := by
  rw [update_incident_cases, ensure_case_noop st k severity timestamp h1 h2]

/-- Lemma: `_ensure_case_for_incident` keeps at most one case row per incident
key. -/
theorem ensure_case_countP_le (st : Store) (k severity timestamp ck : String)
    (h : (st.cases.countP fun c => c.incident_key == ck) ≤ 1) :
    (((_ensure_case_for_incident st k severity timestamp).1.cases.countP
      fun c => c.incident_key == ck) ≤ 1) := by
  unfold _ensure_case_for_incident
  split
  · exact h
  · rcases hfind : st.cases.find? fun c => c.incident_key == k with _ | c0
    · rw [hfind]
      dsimp only
      have hzero : (st.cases.countP fun c => c.incident_key == k) = 0 := by
        rw [List.countP_eq_zero]
        intro a ha
        exact List.find?_eq_none.mp hfind a ha
      rw [List.countP_append]
      by_cases hk : k = ck
      · subst hk
        simp [hzero, List.countP_cons]
      · have : (k == ck) = false := beq_eq_false_iff_ne.mpr hk
        simp [List.countP_cons, this, h]
    · rw [hfind]
      dsimp only
      have hmap : ∀ c : CaseRow,
          ((if c.incident_key == k then
              { c with updated_at := timestamp, severity := severity }
            else c).incident_key == ck) = (c.incident_key == ck) := by
        intro c
        split <;> rfl
      rw [List.countP_map]
      refine le_trans (le_of_eq (List.countP_congr fun c _ => ?_)) h
      simp only [Function.comp_apply, hmap c]

/-- Folding `update_incident` calls keeps at most one case row per incident
key. -/
theorem foldIncidents_cases_le (ops : List IncidentOp) (st : Store) (ck : String)
    (h : (st.cases.countP fun c => c.incident_key == ck) ≤ 1) :
    (((ops.foldl (fun s op => update_incident s op.key op.severity op.timestamp)
      st).cases.countP fun c => c.incident_key == ck) ≤ 1) := by
  induction ops generalizing st with
  | nil => exact h
  | cons op rest ih =>
    rw [List.foldl_cons]
    apply ih
    rw [update_incident_cases]
    exact ensure_case_countP_le st op.key op.severity op.timestamp ck h

/-- C3: a case row is only created by a high/critical detection (any other
severity leaves the cases table literally unchanged, so no deletion, status
change or severity change either); every reachable store keeps at most one
case per incident key; and any later `update_incident`, of any severity,
preserves each existing case row's id, key and status. -/
theorem case_escalation_policy :
    (∀ st k severity timestamp, pyLower severity ≠ "high" →
      pyLower severity ≠ "critical" →
      (update_incident st k severity timestamp).cases = st.cases) ∧
    (∀ ops ck, ((runIncidents ops).cases.countP fun c => c.incident_key == ck) ≤ 1) ∧
    (∀ st k severity timestamp c, c ∈ st.cases →
      ∃ c' ∈ (update_incident st k severity timestamp).cases,
        c'.id = c.id ∧ c'.incident_key = c.incident_key ∧ c'.status = c.status) := by
  refine ⟨update_incident_cases_noop, ?_, ?_⟩
  · intro ops ck
    exact foldIncidents_cases_le ops emptyStore ck (by simp [emptyStore])
  · intro st k severity timestamp c hc
    rw [update_incident_cases]
    unfold _ensure_case_for_incident
    split
    · exact ⟨c, hc, rfl, rfl, rfl⟩
    · rcases hfind : st.cases.find? fun x => x.incident_key == k with _ | c0
      · rw [hfind]
        exact ⟨c, List.mem_append_left _ hc, rfl, rfl, rfl⟩
      · rw [hfind]
        refine ⟨if c.incident_key == k then
            { c with updated_at := timestamp, severity := severity } else c,
          List.mem_map_of_mem _ hc, ?_⟩
        split <;> exact ⟨rfl, rfl, rfl⟩

/-- C3 witness: a "low" update against a store holding an open case changes
nothing in the cases table. -/
theorem case_escalation_policy_witness :
    (update_incident
      ⟨[⟨"k1", "high", 1, "t0", "t0", some 1⟩],
        [⟨1, "k1", "Incident k1", "open", none, "high", "t0", "t0"⟩], [], 2, 1⟩
      "k1" "low" "t1").cases =
      [⟨1, "k1", "Incident k1", "open", none, "high", "t0", "t0"⟩] := by
  exact case_escalation_policy.1
    ⟨[⟨"k1", "high", 1, "t0", "t0", some 1⟩],
      [⟨1, "k1", "Incident k1", "open", none, "high", "t0", "t0"⟩], [], 2, 1⟩
    "k1" "low" "t1" (by decide) (by decide)

/-- C9: when an incident row exists for a key and a low/medium detection is
processed for it, the incident row's `case_id` is overwritten with `NULL`
while the cases table itself (every field of every case row) is left
unchanged. -/
theorem low_medium_clears_incident_case_link
    (st : Store) (k severity timestamp : String) (r : IncidentRow)
    (hr : r ∈ st.incidents) (hk : r.key = k)
    (hsev : pyLower severity = "low" ∨ pyLower severity = "medium") :
    (update_incident st k severity timestamp).cases = st.cases ∧
    ∀ r' ∈ (update_incident st k severity timestamp).incidents,
      r'.key = k → r'.case_id = none := by
  have h1 : pyLower severity ≠ "high" := by rcases hsev with h | h <;> simp [h]
  have h2 : pyLower severity ≠ "critical" := by rcases hsev with h | h <;> simp [h]
  have hens := ensure_case_noop st k severity timestamp h1 h2
  refine ⟨update_incident_cases_noop st k severity timestamp h1 h2, ?_⟩
  intro r' hr' hk'
  unfold update_incident at hr'
  dsimp only at hr'
  rw [hens] at hr'
  rcases hfs : st.incidents.find? fun x => x.key == k with _ | r0
  · exact absurd (List.find?_eq_none.mp hfs r hr) (by simp [hk])
  · rw [hfs] at hr'
    dsimp only at hr'
    rcases List.mem_map.mp hr' with ⟨r₀, hmem, rfl⟩
    by_cases hb : r₀.key == k
    · simp [hb]
    · rw [if_neg hb] at hk' ⊢
      exact absurd (beq_iff_eq.mpr hk') hb

/-- C9 witness: the theorem applied to a store whose incident row links
case 1 and a concrete "low" update. -/
theorem low_medium_clears_incident_case_link_witness :
    (update_incident
      ⟨[⟨"k1", "high", 1, "t0", "t0", some 1⟩],
        [⟨1, "k1", "Incident k1", "open", none, "high", "t0", "t0"⟩], [], 2, 1⟩
      "k1" "low" "t1").cases =
      [⟨1, "k1", "Incident k1", "open", none, "high", "t0", "t0"⟩] ∧
    ∀ r' ∈ (update_incident
      ⟨[⟨"k1", "high", 1, "t0", "t0", some 1⟩],
        [⟨1, "k1", "Incident k1", "open", none, "high", "t0", "t0"⟩], [], 2, 1⟩
      "k1" "low" "t1").incidents, r'.key = "k1" → r'.case_id = none := by
  exact low_medium_clears_incident_case_link
    ⟨[⟨"k1", "high", 1, "t0", "t0", some 1⟩],
      [⟨1, "k1", "Incident k1", "open", none, "high", "t0", "t0"⟩], [], 2, 1⟩
    "k1" "low" "t1" ⟨"k1", "high", 1, "t0", "t0", some 1⟩
    (List.mem_cons_self _ _) rfl (Or.inl (by decide))

/-- A conflicting sighting insert is a no-op returning `None`. -/
theorem insert_sighting_dup (st : Store) (s : SightingData)
    (h : ∃ r ∈ st.sightings, r.key = s.key) :
    insert_sighting st s = (st, none) := by
  unfold insert_sighting
  rw [if_pos]
  obtain ⟨r, hr, hk⟩ := h
  exact List.any_eq_true.mpr ⟨r, hr, beq_iff_eq.mpr hk⟩

/-- A fresh sighting insert appends the row and returns the new rowid. -/
theorem insert_sighting_fresh (st : Store) (s : SightingData)
    (h : ¬ ∃ r ∈ st.sightings, r.key = s.key) :
    insert_sighting st s =
      ({ st with
          sightings := st.sightings ++
            [⟨st.nextSightingId, s.indicator_id, s.event_id, s.matched_field,
              s.matched_value, s.timestamp, s.context, s.score_delta⟩],
          nextSightingId := st.nextSightingId + 1 },
        some st.nextSightingId) := by
  unfold insert_sighting
  rw [if_neg]
  intro hc
  apply h
  rcases List.any_eq_true.mp hc with ⟨r, hr, hb⟩
  exact ⟨r, hr, beq_iff_eq.mp hb⟩

/-- Invariants of the `ingest_event` match loop: every sighting key keeps a
single row (present keys stay single, fresh keys gain exactly one), the
detection list grows by exactly one `cti_match` entry per row actually
stored, and nothing else is appended. -/
theorem runMatchesFrom_spec (ops : List MatchOp) (st : Store) (dets : List Detection)
    (hid : 1 ≤ st.nextSightingId)
    (huniq : ∀ k, (st.sightings.countP fun r => r.key == k) =
      if ∃ r ∈ st.sightings, r.key = k then 1 else 0) :
    (∀ k, ((runMatchesFrom st dets ops).1.sightings.countP fun r => r.key == k) =
      if (∃ r ∈ st.sightings, r.key = k) ∨ (∃ op ∈ ops, op.key = k) then 1 else 0) ∧
    ((runMatchesFrom st dets ops).2.length + st.sightings.length =
      dets.length + (runMatchesFrom st dets ops).1.sightings.length) ∧
    (∀ d ∈ (runMatchesFrom st dets ops).2, d ∈ dets ∨ d.detection_type = "cti_match") := by
  induction ops generalizing st dets with
  | nil =>
    refine ⟨fun k => ?_, by simp [runMatchesFrom], fun d hd => ?_⟩
    · simpa [runMatchesFrom] using huniq k
    · simp only [runMatchesFrom, List.foldl_nil] at hd
      exact Or.inl hd
  | cons op rest ih =>
    have hfold : runMatchesFrom st dets (op :: rest) =
        runMatchesFrom
          (processMatch st dets op.event_id op.matched_field op.matched_value
            op.indicator op.now op.context).1
          (processMatch st dets op.event_id op.matched_field op.matched_value
            op.indicator op.now op.context).2 rest := by
      simp [runMatchesFrom]
    by_cases hdup : ∃ r ∈ st.sightings, r.key = op.key
    · have hstep : processMatch st dets op.event_id op.matched_field op.matched_value
          op.indicator op.now op.context = (st, dets) := by
        unfold processMatch
        simp only [insert_sighting_dup st
          ⟨op.indicator.id, op.event_id, op.matched_field, op.matched_value, op.now,
            op.context, score_sighting op.indicator.confidence op.indicator.severity⟩
          (by exact hdup)]
        simp
      rw [hfold, hstep]
      obtain ⟨h1, h2, h3⟩ := ih st dets hid huniq
      refine ⟨fun k => ?_, h2, h3⟩
      rw [h1 k]
      by_cases hk : op.key = k
      · subst hk
        have hl : ∃ r ∈ st.sightings, r.key = op.key := hdup
        simp [hl]
      · have hiff : (∃ x ∈ op :: rest, x.key = k) ↔ (∃ x ∈ rest, x.key = k) := by
          simp only [List.mem_cons]
          constructor
          · rintro ⟨x, hx | hx, hxs⟩
            · exact absurd (hx ▸ hxs) hk
            · exact ⟨x, hx, hxs⟩
          · rintro ⟨x, hx, hxs⟩
            exact ⟨x, Or.inr hx, hxs⟩
        simp only [hiff]
    · have hins := insert_sighting_fresh st
        ⟨op.indicator.id, op.event_id, op.matched_field, op.matched_value, op.now,
          op.context, score_sighting op.indicator.confidence op.indicator.severity⟩
        (by exact hdup)
      have hstep : processMatch st dets op.event_id op.matched_field op.matched_value
          op.indicator op.now op.context =
        ({ st with
            sightings := st.sightings ++
              [⟨st.nextSightingId, op.indicator.id, op.event_id, op.matched_field,
                op.matched_value, op.now, op.context,
                score_sighting op.indicator.confidence op.indicator.severity⟩]
            nextSightingId := st.nextSightingId + 1 },
          dets ++ [⟨op.event_id, "cti_match", op.indicator.severity,
            op.indicator.confidence,
            op.indicator.source ++ ":" ++ op.indicator.indicator_type, op.now⟩]) := by
        unfold processMatch
        simp only [hins, Option.getD_some]
        rw [if_pos (show st.nextSightingId ≠ 0 by omega)]
      rw [hfold, hstep]
      set row : SightingRow :=
        ⟨st.nextSightingId, op.indicator.id, op.event_id, op.matched_field,
          op.matched_value, op.now, op.context,
          score_sighting op.indicator.confidence op.indicator.severity⟩ with hrow
      have hrowkey : row.key = op.key := rfl
      have hrowmem : row ∈ st.sightings ++ [row] :=
        List.mem_append_right _ (List.mem_singleton.mpr rfl)
      have huniq' : ∀ k,
          ((st.sightings ++ [row]).countP fun r => r.key == k) =
            if ∃ r ∈ st.sightings ++ [row], r.key = k then 1 else 0 := by
        intro k
        rw [List.countP_append, huniq k]
        by_cases hk : op.key = k
        · subst hk
          have hnot : ¬ ∃ r ∈ st.sightings, r.key = op.key := hdup
          have hex : ∃ r ∈ st.sightings ++ [row], r.key = op.key :=
            ⟨row, hrowmem, hrowkey⟩
          rw [if_neg hnot, if_pos hex]
          simp [List.countP_cons, hrowkey]
        · have hb : (row.key == k) = false := by
            rw [hrowkey]
            exact beq_eq_false_iff_ne.mpr hk
          have hiff : (∃ r ∈ st.sightings ++ [row], r.key = k) ↔
              (∃ r ∈ st.sightings, r.key = k) := by
            simp only [List.mem_append, List.mem_singleton, List.mem_cons,
              List.not_mem_nil, or_false]
            constructor
            · rintro ⟨r, hr | hr, hks⟩
              · exact ⟨r, hr, hks⟩
              · subst hr
                exact absurd hks (hrowkey ▸ hk)
            · rintro ⟨r, hr, hks⟩
              exact ⟨r, Or.inl hr, hks⟩
          simp only [hiff, List.countP_cons, List.countP_nil, hb]
          simp
      obtain ⟨h1, h2, h3⟩ := ih
        { st with
            sightings := st.sightings ++ [row]
            nextSightingId := st.nextSightingId + 1 }
        (dets ++ [⟨op.event_id, "cti_match", op.indicator.severity,
          op.indicator.confidence,
          op.indicator.source ++ ":" ++ op.indicator.indicator_type, op.now⟩])
        (by simp) huniq'
      refine ⟨fun k => ?_, ?_, fun d hd => ?_⟩
      · rw [h1 k]
        have hiff : ((∃ r ∈ st.sightings ++ [row], r.key = k) ∨ (∃ x ∈ rest, x.key = k)) ↔
            ((∃ r ∈ st.sightings, r.key = k) ∨ (∃ x ∈ op :: rest, x.key = k)) := by
          simp only [List.mem_append, List.mem_singleton, List.mem_cons,
            List.not_mem_nil, or_false]
          constructor
          · rintro (⟨r, hr | hr, hks⟩ | ⟨x, hx, hxs⟩)
            · exact Or.inl ⟨r, hr, hks⟩
            · have hop : op.key = k := by
                rw [hr, hrowkey] at hks
                exact hks
              exact Or.inr ⟨op, Or.inl rfl, hop⟩
            · exact Or.inr ⟨x, Or.inr hx, hxs⟩
          · rintro (⟨r, hr, hks⟩ | ⟨x, hx | hx, hxs⟩)
            · exact Or.inl ⟨r, Or.inl hr, hks⟩
            · have hrk : row.key = k := by
                rw [hrowkey, ← hx]
                exact hxs
              exact Or.inl ⟨row, Or.inr rfl, hrk⟩
            · exact Or.inr ⟨x, hx, hxs⟩
        simp only [hiff]
      · simp only [List.length_append, List.length_cons, List.length_nil] at h2 ⊢
        omega
      · rcases h3 d hd with hmem | hcti
        · rcases List.mem_append.mp hmem with hmem' | hnew
          · exact Or.inl hmem'
          · right
            rw [List.mem_singleton.mp hnew]
        · exact Or.inr hcti

/-- C1: recording the same sighting tuple any number of times stores exactly
one row for it (a repeat insert is ignored), and the detection list grows by
exactly one synthetic `cti_match` detection per row actually stored — none
for duplicates. -/
theorem sighting_dedup_single_detection (dets : List Detection) (ops : List MatchOp)
    (k : ℕ × ℕ × String × String) :
    ((runMatches dets ops).1.sightings.countP fun r => r.key == k) =
      (if ∃ op ∈ ops, op.key = k then 1 else 0) ∧
    (runMatches dets ops).2.length =
      dets.length + (runMatches dets ops).1.sightings.length := by
  have h := runMatchesFrom_spec ops emptyStore dets (by simp [emptyStore])
    (by intro k'; simp [emptyStore])
  constructor
  · have h1 := h.1 k
    simpa [runMatches, emptyStore] using h1
  · have h2 := h.2.1
    simp only [runMatches, emptyStore] at h2 ⊢
    simp only [List.length_nil] at h2
    omega

/-- C4: for every mail-source event the correlation key is
`mail:{tenant}:{asset}:{sender_domain}:{recipient_domain}:{source_ip}`, the
domains extracted after the `@` (falling back to the normalized
`mail_from`/`rcpt_to` fields) and every absent component replaced by its
`*-unknown` placeholder; on the spec's concrete example the key is
`mail:t1:a1:x.com:y.com:1.2.3.4`. -/
theorem build_incident_key_mail (e : Event) (nf : List (String × String))
    (hsrc : e.source = some "mail") :
    (build_incident_key e nf =
      "mail:" ++ pyOrD e.tenant_id "tenant-unknown" ++ ":" ++
        pyOrD e.asset_id "asset-unknown" ++ ":" ++
        pyOrD (pyOr (_email_domain e.smtp_mail_from)
          (_email_domain (nf.lookup "mail_from"))) "sender-unknown" ++ ":" ++
        pyOrD (pyOr (_email_domain e.smtp_rcpt_to)
          (_email_domain (nf.lookup "rcpt_to"))) "rcpt-unknown" ++ ":" ++
        pyOrD (pyOr e.source_ip (nf.lookup "src_ip")) "ip-unknown") ∧
    build_incident_key
      ⟨some "mail", some "t1", some "a1", some "1.2.3.4", none, some "a@x.com",
        some "b@y.com", none, none, none, ""⟩ [] =
      "mail:t1:a1:x.com:y.com:1.2.3.4" := by
  constructor
  · unfold build_incident_key
    rw [hsrc]
    rfl
  · decide

/-- C4 witness: the theorem applied to the spec's example event. -/
theorem build_incident_key_mail_witness :
    build_incident_key
      ⟨some "mail", some "t1", some "a1", some "1.2.3.4", none, some "a@x.com",
        some "b@y.com", none, none, none, ""⟩ [] =
      "mail:t1:a1:x.com:y.com:1.2.3.4" :=
  (build_incident_key_mail
    ⟨some "mail", some "t1", some "a1", some "1.2.3.4", none, some "a@x.com",
      some "b@y.com", none, none, none, ""⟩ [] rfl).2

/-- A key that labels no pair of an association list is never found. -/
theorem lookup_eq_none {α β : Type} [BEq α] [LawfulBEq α]
    (l : List (α × β)) (k : α) (h : ∀ p ∈ l, ¬ p.1 = k) : l.lookup k = none := by
  induction l with
  | nil => rfl
  | cons p rest ih =>
    have hb : (k == p.1) = false :=
      beq_eq_false_iff_ne.mpr fun hk => h p (List.mem_cons_self p rest) hk.symm
    simp only [List.lookup, hb]
    exact ih fun q hq => h q (List.mem_cons_of_mem p hq)

/-- Every pair an `entry` emits carries the entry's key. -/
theorem entry_fst (k : String) (v : Option String) : ∀ p ∈ entry k v, p.1 = k := by
  intro p hp
  unfold entry at hp
  rcases v with _ | s
  · simp at hp
  · dsimp only at hp
    by_cases hs : s = ""
    · simp [hs] at hp
    · rw [if_neg hs] at hp
      rw [List.mem_singleton.mp hp]

/-- For a non-dns event the canonical map is the entry chain with the
`domain` entry collapsed to nothing. -/
theorem normalize_event_fields_not_dns (e : Event) (m : List (String × String))
    (h : (e.source == some "dns") = false) :
    normalize_event_fields e m =
      entry "src_ip" (pyOr e.source_ip (m.lookup "client_ip")) ++
        entry "dst_ip" (pyOr (m.lookup "destination_ip") (m.lookup "dst_ip")) ++
        entry "helo" (m.lookup "helo") ++
        entry "mail_from" (pyOr (m.lookup "sender") (m.lookup "mail_from")) ++
        entry "rcpt_to"
          (if e.source == some "mail" && truthy e.destination &&
              !(truthy (pyOr (m.lookup "recipient") (m.lookup "rcpt_to"))) then
            e.destination
          else pyOr (m.lookup "recipient") (m.lookup "rcpt_to")) ++
        entry "url" (m.lookup "url") ++
        entry "attachment_hash" (m.lookup "attachment_hash") := by
  unfold normalize_event_fields
  rw [h]
  simp [entry]

/-- Lemma: `_url_domain` never produces the empty string. -/
theorem _url_domain_ne_empty (u : Option String) (s : String)
    (h : _url_domain u = some s) : s ≠ "" := by
  unfold _url_domain at h
  rcases u with _ | v
  · exact absurd h (by simp)
  · dsimp only at h
    by_cases hv : v = ""
    · rw [if_pos hv] at h
      exact absurd h (by simp)
    · rw [if_neg hv] at h
      unfold urlHostname at h
      rcases hsp : splitFirst "://".data v.data with _ | pair
      · rw [hsp] at h
        exact absurd h (by simp)
      · rw [hsp] at h
        dsimp only at h
        split at h
        · exact absurd h (by simp)
        · rename_i hne
          have hs := (Option.some.injEq _ _).mp h
          intro hempty
          rw [← hs] at hempty
          have hdata := congrArg String.data hempty
          simp only [String.data] at hdata
          have : lowerChars (((afterLast '@'
              (pair.2.takeWhile fun c => !(c == '/') && !(c == '?') && !(c == '#'))).takeWhile
              fun c => !(c == ':'))) = [] := hdata
          rw [lowerChars, List.map_eq_nil_iff] at this
          rw [this] at hne
          simp at hne

/-- Lemma: `pyOr` of a URL domain with `None` is the URL domain itself (it is never
the falsy empty string). -/
theorem pyOr_url_none (u : Option String) : pyOr (_url_domain u) none = _url_domain u := by
  unfold pyOr truthy
  rcases hu : _url_domain u with _ | s
  · simp
  · simp [_url_domain_ne_empty u s hu]

/-- C10: a non-dns event's canonical field map never contains `domain` (a
metadata `domain` entry is dropped), so the correlation key of a non-mail,
non-dns event is built with the normalized-domain fallback absent: its
primary component falls back directly from the URL hostname to the
normalized `url` field to the destination. -/
theorem non_dns_drops_metadata_domain (e : Event) (m : List (String × String))
    (h : e.source ≠ some "dns") :
    (normalize_event_fields e m).lookup "domain" = none ∧
    (∀ s, e.source = some s → s ≠ "mail" → s ≠ "dns" →
      build_incident_key e (normalize_event_fields e m) =
        s ++ ":" ++ pyOrD e.tenant_id "tenant-unknown" ++ ":" ++
          pyOrD e.asset_id "asset-unknown" ++ ":" ++
          pyOrD (pyOr (_url_domain e.url) ((normalize_event_fields e m).lookup "url"))
            (pyOrD e.destination "dest-unknown") ++ ":" ++
          pyOrD (pyOr e.source_ip ((normalize_event_fields e m).lookup "src_ip"))
            "ip-unknown") := by
  have hbe : (e.source == some "dns") = false := beq_eq_false_iff_ne.mpr h
  have hdom : (normalize_event_fields e m).lookup "domain" = none := by
    rw [normalize_event_fields_not_dns e m hbe]
    apply lookup_eq_none
    intro p hp hpk
    simp only [List.append_assoc, List.mem_append] at hp
    rcases hp with hp | hp | hp | hp | hp | hp | hp <;>
      rw [entry_fst _ _ p hp] at hpk <;> exact absurd hpk (by decide)
  refine ⟨hdom, fun s hs hm hd => ?_⟩
  unfold build_incident_key
  rw [hs]
  simp only [Option.getD_some]
  rw [if_neg hm, if_neg hd, hdom, pyOr_url_none]

/-- C10 witness: a syslog event whose metadata carries a `domain` entry still
normalizes to a map without `domain`. -/
theorem non_dns_drops_metadata_domain_witness :
    (normalize_event_fields
      ⟨some "syslog", none, none, none, some "d1", none, none, none, none, none, "r"⟩
      [("domain", "evil.tld")]).lookup "domain" = none :=
  (non_dns_drops_metadata_domain
    ⟨some "syslog", none, none, none, some "d1", none, none, none, none, none, "r"⟩
    [("domain", "evil.tld")] (by decide)).1

/-- C7: feeding the spec's raw text through the extractor yields the email,
URL and domain candidates it lists, each attributed to `matched_field`
`"raw"`. -/
theorem extractor_raw_candidates :
    ((⟨"email", "phish@evil.com", "raw", "phish@evil.com"⟩ : IOC) ∈
      extract_event_indicators
        ⟨none, none, none, none, none, none, none, none, none, none,
          "contact phish@evil.com or visit http://bad.tld/x"⟩ []) ∧
    ((⟨"url", "http://bad.tld/x", "raw", "http://bad.tld/x"⟩ : IOC) ∈
      extract_event_indicators
        ⟨none, none, none, none, none, none, none, none, none, none,
          "contact phish@evil.com or visit http://bad.tld/x"⟩ []) ∧
    ((⟨"domain", "bad.tld", "raw", "bad.tld"⟩ : IOC) ∈
      extract_event_indicators
        ⟨none, none, none, none, none, none, none, none, none, none,
          "contact phish@evil.com or visit http://bad.tld/x"⟩ []) := by
  decide

end Monmail
